import Mathlib

/-!
Verification of the `sample_scripts` repository: a shallow embedding of
`parse_number_to_string.py` (the magnitude formatter) and
`timestamp_conversion.py` (the timestamp-format converter), with theorems
settling the specification claims.

Strings are modelled as `List Char`; Python numbers are modelled with exact
arithmetic.  Real inputs are represented by the exact fraction type `Q`
below (numerator/positive denominator, kernel-reducible operations).
Python's `f"{x:.2f}"` is modelled as round-half-even at two decimal places
on the exact value (for binary floats the rounding acts on the nearest
double; every concrete input used below is robustly far from a rounding
boundary, so the exact model agrees).
-/

/-- Coerce a Lean string literal to the `List Char` representation used
throughout this development. -/
def lit (s : String) : List Char := s.data

/-- The character for a decimal digit `n` (`n ≤ 9` in every use). -/
def digCh (n : Nat) : Char := Char.ofNat (48 + n)

/-- Two-digit zero-padded decimal rendering (values below 100). -/
def pad2 (n : Nat) : List Char := [digCh (n / 10), digCh (n % 10)]

/-- Four-digit zero-padded decimal rendering (values below 10000).  Models
CPython's documented `%Y` formatting (zero-padded four-digit year). -/
def pad4 (n : Nat) : List Char :=
  [digCh (n / 1000), digCh (n / 100 % 10), digCh (n / 10 % 10), digCh (n % 10)]

/-- Fuel-driven decimal rendering of a natural number (fuel-driven so the
kernel can evaluate it; the fuel is always sufficient). -/
def natStrF : Nat → Nat → List Char
  | 0, _ => []
  | fuel + 1, n => if n < 10 then [digCh n] else natStrF fuel (n / 10) ++ [digCh (n % 10)]

/-- Decimal rendering of a natural number, models Python `str` on `int`. -/
def natStr (n : Nat) : List Char := natStrF (n + 1) n

/-- Decimal rendering of an integer, models Python `str` on `int`. -/
def intStr (i : Int) : List Char :=
  if i < 0 then '-' :: natStr (-i).toNat else natStr i.toNat

/-- `str(n).zfill(k)`: left-pad with `'0'` to length `k`. -/
def zfill (k : Nat) (s : List Char) : List Char :=
  List.replicate (k - s.length) '0' ++ s

/-- Truncating division of an integer by a positive natural number
(truncation toward zero), models Python `int(...)` applied to an exact
quotient. -/
def tdivPos (a : Int) (b : Nat) : Int :=
  if 0 ≤ a then Int.ofNat (a.toNat / b) else -Int.ofNat ((-a).toNat / b)

/-- Exact fraction: the embedding of a Python real number.  Every value
built by this development has a positive denominator. -/
structure Q where
  n : Int
  d : Int
deriving DecidableEq

/-- The fraction for an integer. -/
def qn (k : Int) : Q := ⟨k, 1⟩

/-- Strict comparison of fractions (cross multiplication; denominators of
constructed values are positive). -/
def qblt (a b : Q) : Bool := decide (a.n * b.d < b.n * a.d)

/-- Non-strict comparison of fractions. -/
def qble (a b : Q) : Bool := decide (a.n * b.d ≤ b.n * a.d)

/-- Absolute value, models Python `abs`. -/
def qabs (q : Q) : Q := if qblt q (qn 0) then ⟨-q.n, q.d⟩ else q

/-- Maximum, models Python `max` on two numbers. -/
def qmax (a b : Q) : Q := if qble a b then b else a

/-- Difference of fractions. -/
def qsub (a b : Q) : Q := ⟨a.n * b.d - b.n * a.d, a.d * b.d⟩

/-- Quotient of fractions (sign moved into the numerator). -/
def qdiv (a b : Q) : Q :=
  if a.d * b.n < 0 then ⟨-(a.n * b.d), -(a.d * b.n)⟩ else ⟨a.n * b.d, a.d * b.n⟩

/-- Floor of a fraction. -/
def qfloor (q : Q) : Int := Int.fdiv q.n q.d

/-- Round to nearest integer, ties to even: the rounding used by Python's
fixed-point float formatting.  The argument is the value already scaled by
100. -/
def roundHalfEven (q : Q) : Int :=
  let f := qfloor q
  let r := qsub q (qn f)
  if qblt ⟨2 * r.n, r.d⟩ (qn 1) then f
  else if qblt (qn 1) ⟨2 * r.n, r.d⟩ then f + 1
  else if Int.emod f 2 = 0 then f else f + 1

/-- Model of Python `f"{q:.2f}"`: exactly two fractional digits, with the
sign kept even when the magnitude rounds to zero (Python renders `-0.00`). -/
def fmt2 (q : Q) : List Char :=
  let m := (roundHalfEven ⟨(qabs q).n * 100, (qabs q).d⟩).toNat
  let body := natStr (m / 100) ++ '.' :: pad2 (m % 100)
  if qblt q (qn 0) then '-' :: body else body

/-- Embedding of `format_number` from `parse_number_to_string.py`, kept
structurally faithful: the suffix loop over `[(1e9,'B'),(1e6,'M'),(1e3,'K')]`
guarded by `num_abs >= 1_000` becomes nested conditionals, the formatting
uses `num` (sign included) exactly as the f-strings do, and the final
"add negative sign" block keeps the source's two identical branches. -/
def format_number (num : Q) : List Char × Option Char × Q :=
  let is_negative := qblt num (qn 0)
  let num_abs := qabs num
  let cs_cm : Option Char × Q :=
    if qble (qn 1000) num_abs then
      if qble (qn 1000000000) num_abs then (some 'B', qn 1000000000)
      else if qble (qn 1000000) num_abs then (some 'M', qn 1000000)
      else (some 'K', qn 1000)
    else (none, qn 1)
  let chosen_suffix := cs_cm.1
  let chosen_magnitude := cs_cm.2
  let result :=
    match chosen_suffix with
    | some suf => fmt2 (qdiv num chosen_magnitude) ++ [suf]
    | none => fmt2 num
  let result :=
    if is_negative ∧ qble (qn 1000) num_abs then '-' :: result
    else if is_negative then '-' :: result
    else result
  (result, chosen_suffix, chosen_magnitude)

/-- Embedding of `format_difference` from `parse_number_to_string.py`.
The source calls `format_number` on both inputs and discards the results;
the final `elif largest_num >= 1_000` of its chain is the residual case of
the preceding guards, so it is the `else` branch here. -/
def format_difference (x1 x2 : Q) : List Char :=
  let _r1 := format_number x1
  let _r2 := format_number x2
  let largest_num := qmax (qabs x1) (qabs x2)
  let mg_sf : Q × Option Char :=
    if qblt largest_num (qn 1000) then (qn 1, none)
    else if qble (qn 1000000000) largest_num then (qn 1000000000, some 'B')
    else if qble (qn 1000000) largest_num then (qn 1000000, some 'M')
    else (qn 1000, some 'K')
  let difference := qsub x1 x2
  match mg_sf.2 with
  | some suf => fmt2 (qdiv difference mg_sf.1) ++ [suf]
  | none => fmt2 difference

/-- The behaviour claimed by the specification for `formatDifference`:
scale class from `max(|a|,|b|)` by the 1e9/1e6/1e3 thresholds, difference
rendered at that shared scale with two fractional digits and the shared
suffix, no suffix below 1000. -/
def formatDifferenceSpec (a b : Q) : List Char :=
  let m := qmax (qabs a) (qabs b)
  if qblt m (qn 1000) then fmt2 (qsub a b)
  else if qble (qn 1000000000) m then fmt2 (qdiv (qsub a b) (qn 1000000000)) ++ ['B']
  else if qble (qn 1000000) m then fmt2 (qdiv (qsub a b) (qn 1000000)) ++ ['M']
  else fmt2 (qdiv (qsub a b) (qn 1000)) ++ ['K']

/-- Fuel-driven leftmost non-overlapping global substring replacement, the
model of Python `str.replace` for a non-empty pattern (the fuel is the
length of the subject, always sufficient since each step consumes at least
one character). -/
def replaceAllF (pat rep : List Char) : Nat → List Char → List Char
  | _, [] => []
  | 0, s => s
  | fuel + 1, c :: rest =>
    if pat ≠ [] ∧ pat.isPrefixOf (c :: rest) then
      rep ++ replaceAllF pat rep fuel (rest.drop (pat.length - 1))
    else
      c :: replaceAllF pat rep fuel rest

/-- Model of Python `s.replace(pat, rep)` (patterns are non-empty in every
use in this repository). -/
def replaceAll (pat rep s : List Char) : List Char := replaceAllF pat rep s.length s

/-- Model of Python's `pat in s` substring test. -/
def containsSub (pat : List Char) : List Char → Bool
  | [] => pat.isEmpty
  | c :: rest => pat.isPrefixOf (c :: rest) || containsSub pat rest

/-- Embedding of `_convert_readable_to_strftime` from
`timestamp_conversion.py`: the eight ordered global replacements.  (The
source name's leading underscore is dropped.)  Total by construction: no
translation-time error exists. -/
def convert_readable_to_strftime (f : List Char) : List Char :=
  let r := replaceAll (lit "YYYY") (lit "%Y") f
  let r := replaceAll (lit "MM") (lit "%m") r
  let r := replaceAll (lit "DD") (lit "%d") r
  let r := replaceAll (lit "HH") (lit "%H") r
  let r := replaceAll (lit "MI") (lit "%M") r
  let r := replaceAll (lit "SS") (lit "%S") r
  let r := replaceAll (lit "offset") (lit "%z") r
  let r := replaceAll (lit "TZ") (lit "%Z") r
  r

/-- The translator's substitution table in the source's fixed order
`YYYY, MM, DD, HH, MI, SS, offset, TZ`. -/
def tokenTable : List (List Char × List Char) :=
  [(lit "YYYY", lit "%Y"), (lit "MM", lit "%m"), (lit "DD", lit "%d"),
   (lit "HH", lit "%H"), (lit "MI", lit "%M"), (lit "SS", lit "%S"),
   (lit "offset", lit "%z"), (lit "TZ", lit "%Z")]

/-- The parsed-instant data model: the fields of a Python `datetime`, with
`tz` the UTC offset in minutes (`none` for a naive datetime). -/
structure DateTime where
  year : Nat
  month : Nat
  day : Nat
  hour : Nat
  minute : Nat
  second : Nat
  microsecond : Nat
  tz : Option Int
deriving DecidableEq

/-- Days in a month of the proleptic Gregorian calendar (as validated by
Python's `datetime`). -/
def daysInMonth (y m : Nat) : Nat :=
  if m = 2 then (if (y % 4 = 0 ∧ y % 100 ≠ 0) ∨ y % 400 = 0 then 29 else 28)
  else if m = 4 ∨ m = 6 ∨ m = 9 ∨ m = 11 then 30
  else 31

/-- A UTC offset acceptable to Python's `timezone` constructor: strictly
less than 24 hours in magnitude. -/
def tzOk : Option Int → Bool
  | none => true
  | some o => decide (o.natAbs < 1440)

/-- Range validation performed by `datetime` construction. -/
def validFields (y mo d h mi s micro : Nat) (tz : Option Int) : Bool :=
  decide (1 ≤ y ∧ y ≤ 9999 ∧ 1 ≤ mo ∧ mo ≤ 12 ∧ 1 ≤ d ∧ d ≤ daysInMonth y mo ∧
    h ≤ 23 ∧ mi ≤ 59 ∧ s ≤ 59 ∧ micro ≤ 999999) && tzOk tz

/-- Construct a validated `DateTime` (the range errors raised by Python's
`datetime`/`timezone` constructors become `none`). -/
def mkValid (y mo d h mi s micro : Nat) (tz : Option Int) : Option DateTime :=
  if validFields y mo d h mi s micro tz then some ⟨y, mo, d, h, mi, s, micro, tz⟩ else none

/-- The validity invariant guaranteed for every parsed `DateTime`. -/
def ValidDT (dt : DateTime) : Prop :=
  1 ≤ dt.year ∧ dt.year ≤ 9999 ∧ 1 ≤ dt.month ∧ dt.month ≤ 12 ∧ 1 ≤ dt.day ∧
    dt.day ≤ daysInMonth dt.year dt.month ∧ dt.hour ≤ 23 ∧ dt.minute ≤ 59 ∧
    dt.second ≤ 59 ∧ dt.microsecond ≤ 999999 ∧ tzOk dt.tz = true

/-- Read one decimal digit. -/
def rdDigit (c : Char) : Option Nat :=
  if '0' ≤ c ∧ c ≤ '9' then some (c.toNat - 48) else none

/-- Read exactly two decimal digits. -/
def read2 : List Char → Option (Nat × List Char)
  | a :: b :: r =>
    (rdDigit a).bind fun d1 => (rdDigit b).bind fun d2 => some (10 * d1 + d2, r)
  | _ => none

/-- Read exactly four decimal digits. -/
def read4 : List Char → Option (Nat × List Char)
  | a :: b :: c :: d :: r =>
    (rdDigit a).bind fun x1 => (rdDigit b).bind fun x2 =>
    (rdDigit c).bind fun x3 => (rdDigit d).bind fun x4 =>
    some (1000 * x1 + 100 * x2 + 10 * x3 + x4, r)
  | _ => none

/-- Consume one expected character. -/
def expectCh (c : Char) : List Char → Option (List Char)
  | x :: r => if x = c then some r else none
  | [] => none

/-- Decimal-digit test. -/
def isDig (c : Char) : Bool := decide ('0' ≤ c ∧ c ≤ '9')

/-- Value of a digit string. -/
def digitsVal (l : List Char) : Nat := l.foldl (fun a c => 10 * a + (c.toNat - 48)) 0

/-- Read an optional fractional-second component: a `'.'` followed by
exactly three (milliseconds) or six (microseconds) digits, as accepted by
`datetime.fromisoformat` before Python 3.11.  Returns microseconds. -/
def readFrac : List Char → Option (Nat × List Char)
  | '.' :: r =>
    let ds := r.takeWhile isDig
    if ds.length = 6 then some (digitsVal ds, r.drop 6)
    else if ds.length = 3 then some (1000 * digitsVal ds, r.drop 3)
    else none
  | r => some (0, r)

/-- The trailing `±HH:MM` offset part of the `fromisoformat` grammar (the
offset requires a colon before Python 3.11, which is what the source's
fallback presumes). -/
def parseOffsetPart : List Char → Option (Option Int)
  | [] => some none
  | sg :: r13 =>
    if sg = '+' ∨ sg = '-' then
      (read2 r13).bind fun p8 =>
      (expectCh ':' p8.2).bind fun r15 =>
      (read2 r15).bind fun p9 =>
      if p9.2 = [] then
        some (some ((if sg = '-' then -1 else 1) * (60 * (p8.1 : Int) + (p9.1 : Int))))
      else none
    else none

/-- The time-of-day (with optional fraction and offset) part of the
`fromisoformat` grammar, following the date separator. -/
def parseTimePart (r6 : List Char) : Option (Nat × Nat × Nat × Nat × Option Int) :=
  (read2 r6).bind fun p4 =>
  (expectCh ':' p4.2).bind fun r8 =>
  (read2 r8).bind fun p5 =>
  (expectCh ':' p5.2).bind fun r10 =>
  (read2 r10).bind fun p6 =>
  (readFrac p6.2).bind fun p7 =>
  (parseOffsetPart p7.2).bind fun tz =>
  some (p4.1, p5.1, p6.1, p7.1, tz)

/-- Model of `datetime.fromisoformat` (pre-3.11 semantics) on the subset
of ISO-8601 forms this repository exercises:
`YYYY-MM-DD[{T,space}HH:MI:SS[.fff[fff]][±HH:MM]]`.
All fields are range-validated as Python's constructors do. -/
def fromiso (s : List Char) : Option DateTime :=
  (read4 s).bind fun p1 =>
  (expectCh '-' p1.2).bind fun r2 =>
  (read2 r2).bind fun p2 =>
  (expectCh '-' p2.2).bind fun r4 =>
  (read2 r4).bind fun p3 =>
  match p3.2 with
  | [] => mkValid p1.1 p2.1 p3.1 0 0 0 0 none
  | sep :: r6 =>
    if sep = 'T' ∨ sep = ' ' then
      (parseTimePart r6).bind fun t =>
      mkValid p1.1 p2.1 p3.1 t.1 t.2.1 t.2.2.1 t.2.2.2.1 t.2.2.2.2
    else none

/-- The guard of the source's no-colon fallback (line 73):
`len(ts) >= 5 and ts[-5] in ["+", "-"] and ts[-3] != ":"`. -/
def fallbackCond (s : List Char) : Bool :=
  decide (5 ≤ s.length) &&
    (s.reverse.getD 4 ' ' == '+' || s.reverse.getD 4 ' ' == '-') &&
    !(s.reverse.getD 2 ' ' == ':')

/-- The source's colon insertion `ts[:-2] + ":" + ts[-2:]` (line 75). -/
def withColon (s : List Char) : List Char :=
  s.take (s.length - 2) ++ ':' :: s.drop (s.length - 2)

/-- The parse step of `convert_timestamp_format` (lines 64-79): try
`fromisoformat`; on failure, if the no-colon-offset guard holds, insert a
colon and retry.  A failing retry propagates the library's
`ValueError("Invalid isoformat string: '...'")` — note it echoes the
colon-inserted string; the `dt is None` path raises
`ValueError(f"Could not parse timestamp: {ts}")`.  The bare `except:`
around the first attempt discards that attempt's message. -/
def pyParse (ts : List Char) : Except (List Char) DateTime :=
  match fromiso ts with
  | some dt => .ok dt
  | none =>
    if fallbackCond ts then
      match fromiso (withColon ts) with
      | some dt => .ok dt
      | none => .error (lit "Invalid isoformat string: '" ++ withColon ts ++ lit "'")
    else .error (lit "Could not parse timestamp: " ++ ts)

/-- Days since the Unix epoch of a Gregorian calendar date (Howard
Hinnant's `days_from_civil` algorithm, as implemented by `datetime`'s
ordinal arithmetic). -/
def daysFromCivil (y m d : Int) : Int :=
  let yAdj := y - (if m ≤ 2 then 1 else 0)
  let era := Int.fdiv yAdj 400
  let yoe := yAdj - era * 400
  let mp := m + (if 2 < m then -3 else 9)
  let doy := Int.fdiv (153 * mp + 2) 5 + d - 1
  let doe := yoe * 365 + Int.fdiv yoe 4 - Int.fdiv yoe 100 + doy
  era * 146097 + doe - 719468

/-- Inverse of `daysFromCivil` (Hinnant's `civil_from_days`). -/
def civilFromDays (z0 : Int) : Int × Int × Int :=
  let z := z0 + 719468
  let era := Int.fdiv z 146097
  let doe := z - era * 146097
  let yoe := Int.fdiv (doe - Int.fdiv doe 1460 + Int.fdiv doe 36524 - Int.fdiv doe 146096) 365
  let y := yoe + era * 400
  let doy := doe - (365 * yoe + Int.fdiv yoe 4 - Int.fdiv yoe 100)
  let mp := Int.fdiv (5 * doy + 2) 153
  let d := doy - Int.fdiv (153 * mp + 2) 5 + 1
  let m := mp + (if mp < 10 then 3 else -9)
  (y + (if m ≤ 2 then 1 else 0), m, d)

/-- Exact microseconds since the Unix epoch of a `DateTime`.  A naive
value is interpreted at the environment's local UTC offset `loc` (in
minutes), which is how `datetime.timestamp()` and `astimezone` treat naive
datetimes; every theorem below quantifies over `loc`.  This is the exact
instant; the float `dt.timestamp()` the source actually calls is the
IEEE-754 binary64 rounding of this value over `10^6`, modelled below by
`rnDouble`. -/
def instantEpochMicros (loc : Int) (dt : DateTime) : Int :=
  daysFromCivil dt.year dt.month dt.day * 86400000000 +
    ((dt.hour : Int) * 3600 + (dt.minute : Int) * 60 + (dt.second : Int)) * 1000000 +
    (dt.microsecond : Int) - dt.tz.getD loc * 60000000

/-- Number of binary digits of a natural number (fuel-driven so the kernel
reduces it; the fuel `n` always suffices since `n` has at most `n` bits). -/
def bitlenF : Nat → Nat → Nat
  | 0, _ => 0
  | f + 1, n => if n = 0 then 0 else bitlenF f (n / 2) + 1

/-- `bitlen n` is the bit length of `n` (`0` for `0`). -/
def bitlen (n : Nat) : Nat := bitlenF n n

/-- Round `a / b` (with `b > 0`) to the nearest natural number, ties to
even: the rounding direction of IEEE-754 round-to-nearest. -/
def roundNE (a b : Nat) : Nat :=
  let q := a / b
  let r := a % b
  if 2 * r < b then q else if b < 2 * r then q + 1 else if q % 2 = 0 then q else q + 1

/-- Nearest-even rounding of `(n / d) * 2 ^ s` to an integer, for a signed
scale `s`. -/
def rneScaled (n d : Nat) (s : Int) : Nat :=
  if 0 ≤ s then roundNE (n * 2 ^ s.toNat) d else roundNE n (d * 2 ^ (-s).toNat)

/-- `⌊log2 (n / d)⌋` for positive `n`, `d`: the bit-length difference is
within one of the answer, and one exact comparison settles it. -/
def floorLog2 (n d : Nat) : Int :=
  let g0 : Int := (bitlen n : Int) - (bitlen d : Int)
  if 0 ≤ g0 then (if d * 2 ^ g0.toNat ≤ n then g0 else g0 - 1)
  else (if d ≤ n * 2 ^ (-g0).toNat then g0 else g0 - 1)

/-- Round the positive rational `n / d` to the nearest IEEE-754 binary64
value, returned as a significand/exponent pair `(m, e)` with value
`m * 2 ^ e`: the exponent is chosen so `n / d` lies in `[2^52, 2^53]`
after scaling, then the scaled value is rounded half-to-even.  (All values
arising here are normal and far from overflow.) -/
def rnePos (n d : Nat) : Nat × Int :=
  let s : Int := 52 - floorLog2 n d
  (rneScaled n d s, -s)

/-- Round the rational `num / den` (`den > 0`) to the nearest binary64,
as a signed significand/exponent pair; models Python's true division of
two ints, which is correctly rounded. -/
def rnDouble (num : Int) (den : Nat) : Int × Int :=
  if num = 0 then (0, 0)
  else if 0 < num then
    let p := rnePos num.toNat den
    ((p.1 : Int), p.2)
  else
    let p := rnePos (-num).toNat den
    (-(p.1 : Int), p.2)

/-- `int(x)` for a binary64 `x = m * 2 ^ e`: truncation toward zero. -/
def truncDouble (m e : Int) : Int :=
  if 0 ≤ e then m * 2 ^ e.toNat
  else if 0 ≤ m then Int.ofNat (m.toNat / 2 ^ (-e).toNat)
  else -Int.ofNat ((-m).toNat / 2 ^ (-e).toNat)

/-- IEEE-754 multiplication of the binary64 `m * 2 ^ e` by `1000`: the
exact product rounded to the nearest binary64 (round-to-nearest-even),
as the source's `dt.timestamp() * 1000`. -/
def mul1000Dbl (m e : Int) : Int × Int :=
  if m = 0 then (0, 0)
  else if 0 ≤ e then rnDouble (m * 1000 * 2 ^ e.toNat) 1
  else rnDouble (m * 1000) (2 ^ (-e).toNat)

/-- The binary64 value `dt.timestamp()` returns: the exact epoch
microseconds divided by `10^6` with one correctly-rounded float division
(`timedelta.total_seconds`). -/
def timestampDbl (loc : Int) (dt : DateTime) : Int × Int :=
  rnDouble (instantEpochMicros loc dt) 1000000

/-- `int(dt.timestamp() * 1000)` (source line 84): one float division, one
float multiplication, then truncation toward zero.  Double rounding can
make this differ by one from the exact millisecond truncation. -/
def epochMsPy (loc : Int) (dt : DateTime) : Int :=
  let v := timestampDbl loc dt
  let w := mul1000Dbl v.1 v.2
  truncDouble w.1 w.2

/-- `int(dt.timestamp())` (source line 87): the float epoch seconds
truncated toward zero. -/
def epochSecPy (loc : Int) (dt : DateTime) : Int :=
  let v := timestampDbl loc dt
  truncDouble v.1 v.2

/-- Model of `dt.astimezone(timezone.utc).replace(tzinfo=None)`: the same
instant re-expressed in UTC calendar fields, with no offset attached.
CPython raises `OverflowError` when the shifted instant falls outside
years `MINYEAR..MAXYEAR` (1..9999); that check is `utcOverflow` below and
is performed at every call site of this function. -/
def utcNaive (loc : Int) (dt : DateTime) : DateTime :=
  let t := instantEpochMicros loc dt
  let days := Int.fdiv t 86400000000
  let rem := (Int.emod t 86400000000).toNat
  let ymd := civilFromDays days
  { year := ymd.1.toNat, month := ymd.2.1.toNat, day := ymd.2.2.toNat,
    hour := rem / 3600000000, minute := rem / 60000000 % 60,
    second := rem / 1000000 % 60, microsecond := rem % 1000000, tz := none }

/-- The (signed) calendar year of the instant re-expressed in UTC. -/
def utcYear (loc : Int) (dt : DateTime) : Int :=
  (civilFromDays (Int.fdiv (instantEpochMicros loc dt) 86400000000)).1

/-- Whether `dt.astimezone(timezone.utc)` raises `OverflowError`
(`"date value out of range"`): the UTC-shifted instant's year lies outside
`MINYEAR..MAXYEAR` = 1..9999. -/
def utcOverflow (loc : Int) (dt : DateTime) : Bool :=
  decide (utcYear loc dt < 1 ∨ 9999 < utcYear loc dt)

/-- `strftime`'s `%z` field: empty for naive datetimes, else the signed
four-digit offset with no colon. -/
def offsetField : Option Int → List Char
  | none => []
  | some off => (if off < 0 then '-' else '+') :: (pad2 (off.natAbs / 60) ++ pad2 (off.natAbs % 60))

/-- `strftime`'s `%Z` field: empty for naive datetimes, else the `tzname()`
of a fixed-offset `timezone` (`"UTC"` or `"UTC±HH:MM"`). -/
def tznameField : Option Int → List Char
  | none => []
  | some off =>
    lit "UTC" ++
      (if off = 0 then []
       else (if off < 0 then '-' else '+') :: (pad2 (off.natAbs / 60) ++ ':' :: pad2 (off.natAbs % 60)))

/-- One `strftime` directive. -/
def directive (dt : DateTime) (c : Char) : List Char :=
  if c = 'Y' then pad4 dt.year
  else if c = 'm' then pad2 dt.month
  else if c = 'd' then pad2 dt.day
  else if c = 'H' then pad2 dt.hour
  else if c = 'M' then pad2 dt.minute
  else if c = 'S' then pad2 dt.second
  else if c = 'z' then offsetField dt.tz
  else if c = 'Z' then tznameField dt.tz
  else ['%', c]

/-- Model of `datetime.strftime` for the directives this repository can
produce; unknown directives pass through literally (glibc behaviour). -/
def strftime (dt : DateTime) : List Char → List Char
  | [] => []
  | '%' :: c :: rest => directive dt c ++ strftime dt rest
  | '%' :: [] => ['%']
  | c :: rest => c :: strftime dt rest

/-- The format dispatch of `convert_timestamp_format` (lines 81-136) on a
parsed datetime: `epoch_ms`/`epoch_sec` first (computed through the float
`timestamp()` pipeline), then the nanosecond-placeholder branch (with UTC
sub-branch), then the UTC branch, else plain template formatting.  Both
UTC sub-branches call `astimezone(timezone.utc)`, which raises
`OverflowError` (`utcOverflow`) when the shifted instant leaves years
1..9999.  `loc` is the environment's local UTC offset in minutes (only
relevant to naive inputs). -/
def formatDT (loc : Int) (dt : DateTime) (fmt : List Char) : Except (List Char) (List Char) :=
  if fmt = lit "epoch_ms" then
      .ok (intStr (epochMsPy loc dt))
    else if fmt = lit "epoch_sec" then
      .ok (intStr (epochSecPy loc dt))
    else if containsSub (lit "nnnnnnnnn") fmt then
      let nanosStr := zfill 9 (natStr (dt.microsecond * 1000))
      if containsSub (lit "Z") fmt then
        if utcOverflow loc dt then .error (lit "date value out of range")
        else
          let f1 := replaceAll (lit "Z") [] (replaceAll (lit "nnnnnnnnn") (lit "\x7bNANOS\x7d") fmt)
          .ok (replaceAll (lit "\x7bNANOS\x7d") nanosStr
            (strftime (utcNaive loc dt) (convert_readable_to_strftime f1) ++ ['Z']))
      else
        let f1 := replaceAll (lit "nnnnnnnnn") (lit "\x7bNANOS\x7d") fmt
        .ok (replaceAll (lit "\x7bNANOS\x7d") nanosStr
          (strftime dt (convert_readable_to_strftime f1)))
    else if containsSub (lit "Z") fmt then
      if utcOverflow loc dt then .error (lit "date value out of range")
      else
        .ok (strftime (utcNaive loc dt) (convert_readable_to_strftime (replaceAll (lit "Z") [] fmt)) ++ ['Z'])
    else
      .ok (strftime dt (convert_readable_to_strftime fmt))

/-- Embedding of `convert_timestamp_format` from `timestamp_conversion.py`:
the parse step (with no-colon fallback) followed by the format dispatch
`formatDT`; every error raised inside the body — parse failures and the
UTC-shift `OverflowError` alike — is caught by the outer handler (line
138) and wrapped with `"Error converting timestamp: "`. -/
def convert_timestamp_format (loc : Int) (ts fmt : List Char) : Except (List Char) (List Char) :=
  match pyParse ts with
  | .error e => .error (lit "Error converting timestamp: " ++ e)
  | .ok dt =>
    match formatDT loc dt fmt with
    | .error e => .error (lit "Error converting timestamp: " ++ e)
    | .ok r => .ok r

/-- The canonical colon-offset timestamp string
`YYYY-MM-DDTHH:MI:SS±OH:OM` built from components. -/
def mkColon (y mo d h mi s : Nat) (sg : Char) (oh om : Nat) : List Char :=
  pad4 y ++ '-' :: (pad2 mo ++ '-' :: (pad2 d ++ 'T' ::
    (pad2 h ++ ':' :: (pad2 mi ++ ':' :: (pad2 s ++ sg :: (pad2 oh ++ ':' :: pad2 om))))))

/-- The same timestamp with no colon in the offset
(`YYYY-MM-DDTHH:MI:SS±OHOM`), which is also what `strftime` emits for the
template `"YYYY-MM-DDTHH:MI:SSoffset"`. -/
def mkNoColon (y mo d h mi s : Nat) (sg : Char) (oh om : Nat) : List Char :=
  pad4 y ++ '-' :: (pad2 mo ++ '-' :: (pad2 d ++ 'T' ::
    (pad2 h ++ ':' :: (pad2 mi ++ ':' :: (pad2 s ++ sg :: (pad2 oh ++ pad2 om))))))

/-- The string `convert_timestamp_format` produces for an offset-aware
`dt` under the template `"YYYY-MM-DDTHH:MI:SSoffset"`. -/
def offsetRender (dt : DateTime) (off : Int) : List Char :=
  mkNoColon dt.year dt.month dt.day dt.hour dt.minute dt.second
    (if off < 0 then '-' else '+') (off.natAbs / 60) (off.natAbs % 60)

/-- The nanosecond string `convert_timestamp_format` splices for `dt`:
`str(dt.microsecond * 1000).zfill(9)`. -/
def nanosOf (dt : DateTime) : List Char := zfill 9 (natStr (dt.microsecond * 1000))

/-- C1: the claim states `format_number` keeps exactly one leading `'-'` on
negative inputs and `format_number (-500) = ("-500.00", none, 1)`.  The code
formats `num` with its sign via the f-string and then prepends another
`'-'`, so it actually returns `"--500.00"`: this theorem evaluates the
embedded code at the failing input `-500`. -/
theorem claim_C1 : format_number (qn (-500)) = (lit "--500.00", none, qn 1) := by rfl

/-- C6: `format_difference` selects the scale class from `max(|a|,|b|)`
with thresholds 1e9/1e6/1e3, computes `a - b`, and renders the difference
at the shared scale with two fractional digits and the shared suffix (none
below 1000); in particular `format_difference 1234567890 1234000000 =
"0.00B"` and `format_difference 100 50 = "50.00"`. -/
theorem claim_C6 :
    (∀ a b : Q, format_difference a b = formatDifferenceSpec a b) ∧
    format_difference (qn 1234567890) (qn 1234000000) = lit "0.00B" ∧
    format_difference (qn 100) (qn 50) = lit "50.00" := by
  refine ⟨fun a b => ?_, by rfl, by rfl⟩
  dsimp only [format_difference, formatDifferenceSpec]
  split_ifs <;> rfl

/-- C7: the claim states that `format_number` picks the largest threshold
not exceeding `|n|`, divides `n` by it and renders with two fractional
digits plus the suffix (returned threshold as scale factor), rendering `n`
itself below 1000.  The threshold selection and scale factor are as
claimed — `format_number 1234567890 = ("1.23B", 'B', 1e9)` — but for
negative `n` the code prepends a second `'-'` to the already-signed
rendering: at `-1500` it returns `"--1.50K"` where the claim requires
`"-1.50K"`.  This theorem evaluates the embedded code at both inputs. -/
theorem claim_C7 :
    format_number (qn 1234567890) = (lit "1.23B", some 'B', qn 1000000000) ∧
    format_number (qn (-1500)) = (lit "--1.50K", some 'K', qn 1000) := by
  exact ⟨by rfl, by rfl⟩

/-- A replacement is the identity when the pattern does not occur
(fuel-level version). -/
theorem replaceAllF_of_not_contains (pat rep : List Char) :
    ∀ fuel s, containsSub pat s = false → replaceAllF pat rep fuel s = s := by
  intro fuel
  induction fuel with
  | zero =>
    intro s _
    cases s <;> rfl
  | succ fuel ih =>
    intro s hs
    cases s with
    | nil => rfl
    | cons c rest =>
      have h2 : pat.isPrefixOf (c :: rest) = false ∧ containsSub pat rest = false := by
        simpa [containsSub, Bool.or_eq_false_iff] using hs
      have hcond : ¬ (pat ≠ [] ∧ pat.isPrefixOf (c :: rest)) := by
        intro hc
        rw [h2.1] at hc
        exact Bool.false_ne_true hc.2
      simp only [replaceAllF, if_neg hcond]
      rw [ih rest h2.2]

/-- A replacement is the identity when the pattern does not occur. -/
theorem replaceAll_of_not_contains (pat rep s : List Char)
    (h : containsSub pat s = false) : replaceAll pat rep s = s :=
  replaceAllF_of_not_contains pat rep s.length s h

/-- C8: the translator applies the eight literal substitutions
`YYYY→%Y, MM→%m, DD→%d, HH→%H, MI→%M, SS→%S, offset→%z, TZ→%Z` globally in
exactly that fixed order (it coincides with the ordered fold over
`tokenTable`), it is a total function (so never raises), and any string in
which none of the eight tokens occurs passes through unchanged; the
translation of `"YYYY-MM-DDTHH:MI:SSoffset"` is `"%Y-%m-%dT%H:%M:%S%z"`. -/
theorem claim_C8 :
    (∀ s, convert_readable_to_strftime s =
      tokenTable.foldl (fun acc pr => replaceAll pr.1 pr.2 acc) s) ∧
    (∀ s, (∀ pr ∈ tokenTable, containsSub pr.1 s = false) →
      convert_readable_to_strftime s = s) ∧
    convert_readable_to_strftime (lit "YYYY-MM-DDTHH:MI:SSoffset") =
      lit "%Y-%m-%dT%H:%M:%S%z" := by
  refine ⟨fun s => ?_, fun s h => ?_, by rfl⟩
  · dsimp only [convert_readable_to_strftime]
    simp only [tokenTable, List.foldl_cons, List.foldl_nil]
  have h1 := h (lit "YYYY", lit "%Y") (by simp [tokenTable])
  have h2 := h (lit "MM", lit "%m") (by simp [tokenTable])
  have h3 := h (lit "DD", lit "%d") (by simp [tokenTable])
  have h4 := h (lit "HH", lit "%H") (by simp [tokenTable])
  have h5 := h (lit "MI", lit "%M") (by simp [tokenTable])
  have h6 := h (lit "SS", lit "%S") (by simp [tokenTable])
  have h7 := h (lit "offset", lit "%z") (by simp [tokenTable])
  have h8 := h (lit "TZ", lit "%Z") (by simp [tokenTable])
  dsimp only [convert_readable_to_strftime]
  rw [replaceAll_of_not_contains _ _ _ h1, replaceAll_of_not_contains _ _ _ h2,
    replaceAll_of_not_contains _ _ _ h3, replaceAll_of_not_contains _ _ _ h4,
    replaceAll_of_not_contains _ _ _ h5, replaceAll_of_not_contains _ _ _ h6,
    replaceAll_of_not_contains _ _ _ h7, replaceAll_of_not_contains _ _ _ h8]

/-- Witness for C8: the pass-through part applied at the token-free string
`"abc"`, together with the fold characterization at the same input. -/
theorem claim_C8_witness : convert_readable_to_strftime (lit "abc") = lit "abc" :=
  claim_C8.2.1 (lit "abc") (by decide)

/-- Digit characters decode to their value. -/
theorem rdDigit_digCh (k : Nat) (hk : k ≤ 9) : rdDigit (digCh k) = some k := by
  interval_cases k <;> rfl

/-- Digit characters are not `':'`. -/
theorem digCh_ne_colon (k : Nat) (hk : k ≤ 9) : digCh k ≠ ':' := by
  interval_cases k <;> decide

/-- Two zero-padded digits read back to their value. -/
theorem read2_pad2 (n : Nat) (hn : n ≤ 99) (r : List Char) :
    read2 (pad2 n ++ r) = some (n, r) := by
  have h1 : n / 10 ≤ 9 := by omega
  have h2 : n % 10 ≤ 9 := by omega
  simp only [pad2, List.cons_append, List.nil_append, read2,
    rdDigit_digCh _ h1, rdDigit_digCh _ h2, Option.some_bind]
  have : 10 * (n / 10) + n % 10 = n := by omega
  rw [this]

/-- Two zero-padded digits alone read back to their value. -/
theorem read2_pad2_nil (n : Nat) (hn : n ≤ 99) : read2 (pad2 n) = some (n, []) := by
  have := read2_pad2 n hn []
  simpa using this

/-- Four zero-padded digits read back to their value. -/
theorem read4_pad4 (n : Nat) (hn : n ≤ 9999) (r : List Char) :
    read4 (pad4 n ++ r) = some (n, r) := by
  have h1 : n / 1000 ≤ 9 := by omega
  have h2 : n / 100 % 10 ≤ 9 := by omega
  have h3 : n / 10 % 10 ≤ 9 := by omega
  have h4 : n % 10 ≤ 9 := by omega
  simp only [pad4, List.cons_append, List.nil_append, read4,
    rdDigit_digCh _ h1, rdDigit_digCh _ h2, rdDigit_digCh _ h3, rdDigit_digCh _ h4,
    Option.some_bind]
  have : 1000 * (n / 1000) + 100 * (n / 100 % 10) + 10 * (n / 10 % 10) + n % 10 = n := by
    omega
  rw [this]

/-- Consuming the expected character succeeds. -/
theorem expectCh_cons (c : Char) (r : List Char) : expectCh c (c :: r) = some r := by
  simp [expectCh]

/-- A sign character starts no fractional component. -/
theorem readFrac_sign (sg : Char) (hsg : sg = '+' ∨ sg = '-') (r : List Char) :
    readFrac (sg :: r) = some (0, sg :: r) := by
  rcases hsg with h | h <;> subst h <;> rfl

/-- A validated construction satisfies the validity invariant. -/
theorem mkValid_valid {y mo d h mi s micro : Nat} {tz : Option Int} {dt : DateTime}
    (hm : mkValid y mo d h mi s micro tz = some dt) : ValidDT dt := by
  unfold mkValid at hm
  split_ifs at hm with hv
  · cases hm
    simp only [validFields, Bool.and_eq_true, decide_eq_true_eq] at hv
    exact ⟨hv.1.1, hv.1.2.1, hv.1.2.2.1, hv.1.2.2.2.1, hv.1.2.2.2.2.1,
      hv.1.2.2.2.2.2.1, hv.1.2.2.2.2.2.2.1, hv.1.2.2.2.2.2.2.2.1,
      hv.1.2.2.2.2.2.2.2.2.1, hv.1.2.2.2.2.2.2.2.2.2, hv.2⟩

/-- Every datetime produced by the parser satisfies the validity
invariant. -/
theorem fromiso_valid {s : List Char} {dt : DateTime} (h : fromiso s = some dt) :
    ValidDT dt := by
  unfold fromiso at h
  simp only [Option.bind_eq_some] at h
  obtain ⟨p1, -, p2r, -, p3, -, p4r, -, p5, -, h⟩ := h
  split at h
  · exact mkValid_valid h
  · split at h
    · simp only [Option.bind_eq_some] at h
      obtain ⟨t, -, h⟩ := h
      exact mkValid_valid h
    · cases h

/-- Every datetime produced by the parse step (with fallback) satisfies
the validity invariant. -/
theorem pyParse_valid {ts : List Char} {dt : DateTime} (h : pyParse ts = .ok dt) :
    ValidDT dt := by
  unfold pyParse at h
  cases hf : fromiso ts with
  | some d0 =>
    rw [hf] at h
    cases h
    exact fromiso_valid hf
  | none =>
    rw [hf] at h
    split_ifs at h with hc
    · cases hg : fromiso (withColon ts) with
      | some d1 =>
        rw [hg] at h
        cases h
        exact fromiso_valid hg
      | none => rw [hg] at h; cases h
theorem daysInMonth_le (y m : Nat) : daysInMonth y m ≤ 31 := by
  unfold daysInMonth
  split_ifs <;> omega

theorem fromiso_mkColon (y mo d h mi s oh om : Nat) (sg : Char)
    (hy1 : 1 ≤ y) (hy2 : y ≤ 9999) (hmo1 : 1 ≤ mo) (hmo2 : mo ≤ 12)
    (hd1 : 1 ≤ d) (hd2 : d ≤ daysInMonth y mo)
    (hh : h ≤ 23) (hmi : mi ≤ 59) (hs : s ≤ 59)
    (hsg : sg = '+' ∨ sg = '-') (hoh : oh ≤ 23) (hom : om ≤ 59) :
    fromiso (mkColon y mo d h mi s sg oh om) =
      some (DateTime.mk y mo d h mi s 0
        (some ((if sg = '-' then -1 else 1) * (60 * (oh : Int) + (om : Int))))) := by
  unfold mkColon fromiso parseTimePart parseOffsetPart
  rw [read4_pad4 y (by omega)]
  simp only [Option.some_bind]
  rw [expectCh_cons]
  simp only [Option.some_bind]
  rw [read2_pad2 mo (by omega)]
  simp only [Option.some_bind]
  rw [expectCh_cons]
  simp only [Option.some_bind]
  rw [read2_pad2 d (by have := daysInMonth_le y mo; omega)]
  simp only [Option.some_bind]
  simp only [true_or, ite_true]
  rw [read2_pad2 h (by omega)]
  simp only [Option.some_bind]
  rw [expectCh_cons]
  simp only [Option.some_bind]
  rw [read2_pad2 mi (by omega)]
  simp only [Option.some_bind]
  rw [expectCh_cons]
  simp only [Option.some_bind]
  rw [read2_pad2 s (by omega)]
  simp only [Option.some_bind]
  rw [readFrac_sign sg hsg]
  simp only [Option.some_bind]
  rw [if_pos hsg]
  rw [read2_pad2 oh (by omega)]
  simp only [Option.some_bind]
  rw [expectCh_cons]
  simp only [Option.some_bind]
  rw [read2_pad2_nil om (by omega)]
  simp only [Option.some_bind, ite_true]
  unfold mkValid
  rw [if_pos]
  simp only [validFields, tzOk, Bool.and_eq_true, decide_eq_true_eq]
  refine ⟨⟨hy1, hy2, hmo1, hmo2, hd1, hd2, hh, hmi, hs, by omega⟩, ?_⟩
  rcases hsg with hsg | hsg <;> subst hsg <;> simp <;> omega

theorem expectCh_colon_digCh (k : Nat) (hk : k ≤ 9) (r : List Char) :
    expectCh ':' (digCh k :: r) = none := by
  simp [expectCh, digCh_ne_colon k hk]

theorem fromiso_mkNoColon (y mo d h mi s oh om : Nat) (sg : Char)
    (hy2 : y ≤ 9999) (hmo2 : mo ≤ 99) (hd2 : d ≤ 99)
    (hh : h ≤ 99) (hmi : mi ≤ 99) (hs : s ≤ 99)
    (hsg : sg = '+' ∨ sg = '-') (hoh : oh ≤ 99) (hom : om ≤ 99) :
    fromiso (mkNoColon y mo d h mi s sg oh om) = none := by
  unfold mkNoColon fromiso parseTimePart parseOffsetPart
  rw [read4_pad4 y hy2]
  simp only [Option.some_bind]
  rw [expectCh_cons]
  simp only [Option.some_bind]
  rw [read2_pad2 mo hmo2]
  simp only [Option.some_bind]
  rw [expectCh_cons]
  simp only [Option.some_bind]
  rw [read2_pad2 d hd2]
  simp only [Option.some_bind]
  simp only [true_or, ite_true]
  rw [read2_pad2 h hh]
  simp only [Option.some_bind]
  rw [expectCh_cons]
  simp only [Option.some_bind]
  rw [read2_pad2 mi hmi]
  simp only [Option.some_bind]
  rw [expectCh_cons]
  simp only [Option.some_bind]
  rw [read2_pad2 s hs]
  simp only [Option.some_bind]
  rw [readFrac_sign sg hsg]
  simp only [Option.some_bind]
  rw [if_pos hsg]
  rw [read2_pad2 oh hoh]
  simp only [Option.some_bind]
  rw [show pad2 om = digCh (om / 10) :: [digCh (om % 10)] from rfl]
  rw [expectCh_colon_digCh (om / 10) (by omega)]
  simp only [Option.none_bind]

theorem mkNoColon_flatten (y mo d h mi s : Nat) (sg : Char) (oh om : Nat) :
    mkNoColon y mo d h mi s sg oh om =
      (pad4 y ++ '-' :: (pad2 mo ++ '-' :: (pad2 d ++ 'T' ::
        (pad2 h ++ ':' :: (pad2 mi ++ ':' :: pad2 s))))) ++
        [sg, digCh (oh / 10), digCh (oh % 10), digCh (om / 10), digCh (om % 10)] := by
  simp [mkNoColon, pad2, pad4, List.append_assoc]

theorem mkColon_as_withColon (y mo d h mi s : Nat) (sg : Char) (oh om : Nat) :
    (pad4 y ++ '-' :: (pad2 mo ++ '-' :: (pad2 d ++ 'T' ::
        (pad2 h ++ ':' :: (pad2 mi ++ ':' :: pad2 s))))) ++
        [sg, digCh (oh / 10), digCh (oh % 10), ':', digCh (om / 10), digCh (om % 10)] =
      mkColon y mo d h mi s sg oh om := by
  simp [mkColon, pad2, pad4, List.append_assoc]

theorem fallbackCond_append5 (u : List Char) (c0 c1 c2 c3 c4 : Char) :
    fallbackCond (u ++ [c0, c1, c2, c3, c4]) =
      (((c0 == '+') || (c0 == '-')) && !(c2 == ':')) := by
  have g4 : (u ++ [c0, c1, c2, c3, c4]).reverse.getD 4 ' ' = c0 := by
    rw [List.reverse_append]; rfl
  have g2 : (u ++ [c0, c1, c2, c3, c4]).reverse.getD 2 ' ' = c2 := by
    rw [List.reverse_append]; rfl
  have hl : decide (5 ≤ (u ++ [c0, c1, c2, c3, c4]).length) = true := by simp
  unfold fallbackCond
  rw [g4, g2, hl, Bool.true_and]

theorem withColon_append5 (u : List Char) (c0 c1 c2 c3 c4 : Char) :
    withColon (u ++ [c0, c1, c2, c3, c4]) = u ++ [c0, c1, c2, ':', c3, c4] := by
  unfold withColon
  have hl : (u ++ [c0, c1, c2, c3, c4]).length - 2 = u.length + 3 := by simp
  rw [hl, List.take_append_eq_append_take, List.drop_append_eq_append_drop]
  rw [List.take_of_length_le (by omega), List.drop_of_length_le (by omega)]
  have h3 : u.length + 3 - u.length = 3 := by omega
  rw [h3]
  simp

theorem pyParse_mkColon (y mo d h mi s oh om : Nat) (sg : Char)
    (hy1 : 1 ≤ y) (hy2 : y ≤ 9999) (hmo1 : 1 ≤ mo) (hmo2 : mo ≤ 12)
    (hd1 : 1 ≤ d) (hd2 : d ≤ daysInMonth y mo)
    (hh : h ≤ 23) (hmi : mi ≤ 59) (hs : s ≤ 59)
    (hsg : sg = '+' ∨ sg = '-') (hoh : oh ≤ 23) (hom : om ≤ 59) :
    pyParse (mkColon y mo d h mi s sg oh om) =
      .ok (DateTime.mk y mo d h mi s 0
        (some ((if sg = '-' then -1 else 1) * (60 * (oh : Int) + (om : Int))))) := by
  unfold pyParse
  rw [fromiso_mkColon y mo d h mi s oh om sg hy1 hy2 hmo1 hmo2 hd1 hd2 hh hmi hs hsg hoh hom]

theorem pyParse_mkNoColon (y mo d h mi s oh om : Nat) (sg : Char)
    (hy1 : 1 ≤ y) (hy2 : y ≤ 9999) (hmo1 : 1 ≤ mo) (hmo2 : mo ≤ 12)
    (hd1 : 1 ≤ d) (hd2 : d ≤ daysInMonth y mo)
    (hh : h ≤ 23) (hmi : mi ≤ 59) (hs : s ≤ 59)
    (hsg : sg = '+' ∨ sg = '-') (hoh : oh ≤ 23) (hom : om ≤ 59) :
    pyParse (mkNoColon y mo d h mi s sg oh om) =
      .ok (DateTime.mk y mo d h mi s 0
        (some ((if sg = '-' then -1 else 1) * (60 * (oh : Int) + (om : Int))))) := by
  have hsgb : ((sg == '+') || (sg == '-')) = true := by
    rcases hsg with h' | h' <;> subst h' <;> rfl
  have hdig : (digCh (oh % 10) == ':') = false := by
    rw [beq_eq_false_iff_ne]
    exact digCh_ne_colon (oh % 10) (by omega)
  unfold pyParse
  rw [fromiso_mkNoColon y mo d h mi s oh om sg hy2 (by omega)
    (by have := daysInMonth_le y mo; omega) (by omega) (by omega) (by omega) hsg (by omega)
    (by omega)]
  rw [mkNoColon_flatten, fallbackCond_append5, hsgb, hdig, Bool.not_false, Bool.and_true,
    if_pos rfl, withColon_append5, mkColon_as_withColon]
  rw [fromiso_mkColon y mo d h mi s oh om sg hy1 hy2 hmo1 hmo2 hd1 hd2 hh hmi hs hsg hoh hom]

/-- C5: an ISO-8601 timestamp whose trailing UTC offset lacks a colon is
converted identically to the same timestamp written with a colon in the
offset, for every target format and every environment offset: the first
`fromisoformat` attempt fails on the no-colon form, the source's guarded
fallback inserts the colon, and both calls then format the same parsed
instant.  (Timestamp shape: the canonical whole-second offset-bearing form
`YYYY-MM-DDTHH:MI:SS±HH(:)MM` over all valid field values.) -/
theorem claim_C5 (loc : Int) (fmt : List Char) (y mo d h mi s oh om : Nat) (sg : Char)
    (hy1 : 1 ≤ y) (hy2 : y ≤ 9999) (hmo1 : 1 ≤ mo) (hmo2 : mo ≤ 12)
    (hd1 : 1 ≤ d) (hd2 : d ≤ daysInMonth y mo)
    (hh : h ≤ 23) (hmi : mi ≤ 59) (hs : s ≤ 59)
    (hsg : sg = '+' ∨ sg = '-') (hoh : oh ≤ 23) (hom : om ≤ 59) :
    convert_timestamp_format loc (mkNoColon y mo d h mi s sg oh om) fmt =
      convert_timestamp_format loc (mkColon y mo d h mi s sg oh om) fmt := by
  unfold convert_timestamp_format
  rw [pyParse_mkNoColon y mo d h mi s oh om sg hy1 hy2 hmo1 hmo2 hd1 hd2 hh hmi hs hsg hoh hom,
    pyParse_mkColon y mo d h mi s oh om sg hy1 hy2 hmo1 hmo2 hd1 hd2 hh hmi hs hsg hoh hom]

/-- Witness for C5: the claim's own example pair
`"2025-11-01T00:00:00-0800"` / `"2025-11-01T00:00:00-08:00"` under
template `"YYYY-MM-DD"`, both yielding `"2025-11-01"`. -/
theorem claim_C5_witness :
    convert_timestamp_format 0 (lit "2025-11-01T00:00:00-0800") (lit "YYYY-MM-DD") =
      convert_timestamp_format 0 (lit "2025-11-01T00:00:00-08:00") (lit "YYYY-MM-DD") ∧
    convert_timestamp_format 0 (lit "2025-11-01T00:00:00-08:00") (lit "YYYY-MM-DD") =
      .ok (lit "2025-11-01") := by
  constructor
  · have e1 : lit "2025-11-01T00:00:00-0800" = mkNoColon 2025 11 1 0 0 0 '-' 8 0 := by rfl
    have e2 : lit "2025-11-01T00:00:00-08:00" = mkColon 2025 11 1 0 0 0 '-' 8 0 := by rfl
    rw [e1, e2]
    exact claim_C5 0 (lit "YYYY-MM-DD") 2025 11 1 0 0 0 8 0 '-' (by omega) (by omega)
      (by omega) (by omega) (by omega) (by decide) (by omega) (by omega) (by omega)
      (Or.inr rfl) (by omega) (by omega)
  · rfl

theorem strftime_offsetPattern (y mo d h mi s mc : Nat) (tz : Option Int) :
    strftime (DateTime.mk y mo d h mi s mc tz) (lit "%Y-%m-%dT%H:%M:%S%z") =
      pad4 y ++ '-' :: (pad2 mo ++ '-' :: (pad2 d ++ 'T' :: (pad2 h ++ ':' ::
        (pad2 mi ++ ':' :: (pad2 s ++ (offsetField tz ++ [])))))) := rfl

/-- C4 (amended): formatting an offset-bearing timestamp through
`"YYYY-MM-DDTHH:MI:SSoffset"` and re-parsing yields the original instant
with its fractional-second component discarded (microseconds zeroed); when
the input has a whole-second instant the round trip is exact.  The claim as
stated (same instant for every supported input) fails for fractional
inputs — see the counterexample. -/
theorem claim_C4 (loc : Int) (ts : List Char) (dt : DateTime) (off : Int)
    (hp : pyParse ts = .ok dt) (htz : dt.tz = some off) :
    convert_timestamp_format loc ts (lit "YYYY-MM-DDTHH:MI:SSoffset") =
      .ok (offsetRender dt off) ∧
    pyParse (offsetRender dt off) = .ok { dt with microsecond := 0 } ∧
    (dt.microsecond = 0 → pyParse (offsetRender dt off) = .ok dt) := by
  have hv := pyParse_valid hp
  obtain ⟨y, mo, d, h, mi, s, mc, tz⟩ := dt
  dsimp only at htz
  subst htz
  obtain ⟨hy1, hy2, hmo1, hmo2, hd1, hd2, hh, hmi, hs, hmc, htzok⟩ := hv
  dsimp only at hy1 hy2 hmo1 hmo2 hd1 hd2 hh hmi hs hmc htzok
  have hoff : off.natAbs < 1440 := by
    simpa [tzOk, decide_eq_true_eq] using htzok
  have hsgE : (if off < 0 then '-' else '+') = '+' ∨ (if off < 0 then '-' else '+') = '-' := by
    by_cases hl : off < 0
    · rw [if_pos hl]; exact Or.inr rfl
    · rw [if_neg hl]; exact Or.inl rfl
  have hpy : pyParse (offsetRender (DateTime.mk y mo d h mi s mc (some off)) off) =
      .ok (DateTime.mk y mo d h mi s 0 (some off)) := by
    show pyParse (mkNoColon y mo d h mi s (if off < 0 then '-' else '+')
      (off.natAbs / 60) (off.natAbs % 60)) = _
    rw [pyParse_mkNoColon y mo d h mi s (off.natAbs / 60) (off.natAbs % 60) _
      hy1 hy2 hmo1 hmo2 hd1 hd2 hh hmi hs hsgE (by omega) (by omega)]
    have hval : ((if (if off < 0 then '-' else '+') = '-' then (-1 : Int) else 1) *
        (60 * ((off.natAbs / 60 : Nat) : Int) + ((off.natAbs % 60 : Nat) : Int))) = off := by
      by_cases hl : off < 0
      · rw [if_pos hl]
        rw [show (if ('-' : Char) = '-' then (-1 : Int) else 1) = -1 from rfl]
        omega
      · rw [if_neg hl]
        rw [if_neg (by decide : ¬('+' : Char) = '-')]
        omega
    rw [hval]
  refine ⟨?_, hpy, fun hmc0 => ?_⟩
  · have e : convert_timestamp_format loc ts (lit "YYYY-MM-DDTHH:MI:SSoffset") =
        .ok (strftime (DateTime.mk y mo d h mi s mc (some off)) (lit "%Y-%m-%dT%H:%M:%S%z")) := by
      unfold convert_timestamp_format
      rw [hp]
      rfl
    rw [e, strftime_offsetPattern]
    show _ = Except.ok (mkNoColon y mo d h mi s (if off < 0 then '-' else '+')
      (off.natAbs / 60) (off.natAbs % 60))
    simp [mkNoColon, offsetField]
  · subst hmc0
    simpa using hpy

/-- Counterexample to C4 as stated: the supported offset-bearing input
`"2025-11-01T00:00:00.500000-08:00"` round-trips through
`"YYYY-MM-DDTHH:MI:SSoffset"` to a string that re-parses to an instant
half a second away from the original's. -/
theorem claim_C4_counterexample :
    convert_timestamp_format 0 (lit "2025-11-01T00:00:00.500000-08:00")
        (lit "YYYY-MM-DDTHH:MI:SSoffset") = .ok (lit "2025-11-01T00:00:00-0800") ∧
    pyParse (lit "2025-11-01T00:00:00.500000-08:00") =
      .ok (DateTime.mk 2025 11 1 0 0 0 500000 (some (-480))) ∧
    pyParse (lit "2025-11-01T00:00:00-0800") =
      .ok (DateTime.mk 2025 11 1 0 0 0 0 (some (-480))) ∧
    instantEpochMicros 0 (DateTime.mk 2025 11 1 0 0 0 0 (some (-480))) ≠
      instantEpochMicros 0 (DateTime.mk 2025 11 1 0 0 0 500000 (some (-480))) :=
  ⟨rfl, rfl, rfl, by decide⟩

/-- Witness for C4 (amended) at the whole-second input
`"2025-11-01T00:00:00-08:00"`: the round trip reproduces the parsed
datetime exactly. -/
theorem claim_C4_witness :
    convert_timestamp_format 0 (lit "2025-11-01T00:00:00-08:00")
        (lit "YYYY-MM-DDTHH:MI:SSoffset") =
      .ok (offsetRender (DateTime.mk 2025 11 1 0 0 0 0 (some (-480))) (-480)) ∧
    pyParse (offsetRender (DateTime.mk 2025 11 1 0 0 0 0 (some (-480))) (-480)) =
      .ok (DateTime.mk 2025 11 1 0 0 0 0 (some (-480))) := by
  have h := claim_C4 0 (lit "2025-11-01T00:00:00-08:00")
    (DateTime.mk 2025 11 1 0 0 0 0 (some (-480))) (-480) rfl rfl
  exact ⟨h.1, h.2.2 rfl⟩

/-- Counterexample to C3 as stated: at the parseable input
`"2004-01-10T13:37:04.001000+00:00"` (exact epoch seconds `2^30 + 0.001`)
`epoch_ms` returns `"1073741824000"`, one millisecond below the exact
truncated milliseconds `1073741824001` of the full-precision parsed
instant: `timestamp()` rounds to a binary64 below the exact value and the
float multiplication by 1000 rounds the product below the integer. -/
theorem claim_C3_counterexample :
    convert_timestamp_format 0 (lit "2004-01-10T13:37:04.001000+00:00") (lit "epoch_ms") =
      .ok (lit "1073741824000") ∧
    pyParse (lit "2004-01-10T13:37:04.001000+00:00") =
      .ok (DateTime.mk 2004 1 10 13 37 4 1000 (some 0)) ∧
    tdivPos (instantEpochMicros 0 (DateTime.mk 2004 1 10 13 37 4 1000 (some 0))) 1000 =
      1073741824001 :=
  ⟨rfl, rfl, rfl⟩

/-- C3 (amended): the target formats `"epoch_ms"` and `"epoch_sec"` are
dispatched before any template handling (the string-equality tests are the
first branches after parsing, so the epoch value is returned for every
parseable input regardless of template machinery), and return the decimal
rendering of `int(timestamp * 1000)` resp. `int(timestamp)`, where
`timestamp` is the IEEE-754 binary64 nearest the exact epoch seconds of
the parsed instant.  This equals the exact truncated milliseconds except
where the two float roundings shift the value by one (see the
counterexample); at the claim's concrete input the float value is exact,
so `convertTimestampFormat("2025-11-01T00:00:00-08:00", "epoch_ms") =
"1761984000000"` and the millisecond value coincides with the exact
truncation.  `loc` is the environment's local offset, relevant only to
naive inputs. -/
theorem claim_C3 :
    (∀ (loc : Int) (ts : List Char) (dt : DateTime), pyParse ts = .ok dt →
      convert_timestamp_format loc ts (lit "epoch_ms") =
        .ok (intStr (epochMsPy loc dt)) ∧
      convert_timestamp_format loc ts (lit "epoch_sec") =
        .ok (intStr (epochSecPy loc dt))) ∧
    convert_timestamp_format 0 (lit "2025-11-01T00:00:00-08:00") (lit "epoch_ms") =
      .ok (lit "1761984000000") ∧
    convert_timestamp_format 0 (lit "2025-11-01T00:00:00-08:00") (lit "epoch_sec") =
      .ok (lit "1761984000") ∧
    epochMsPy 0 (DateTime.mk 2025 11 1 0 0 0 0 (some (-480))) =
      tdivPos (instantEpochMicros 0 (DateTime.mk 2025 11 1 0 0 0 0 (some (-480)))) 1000 := by
  refine ⟨fun loc ts dt hp => ⟨?_, ?_⟩, by rfl, by rfl, by rfl⟩
  · unfold convert_timestamp_format
    rw [hp]
    rfl
  · unfold convert_timestamp_format
    rw [hp]
    rfl

/-- Witness for C3 (amended): the general epoch characterization applied
at the claim's concrete input. -/
theorem claim_C3_witness :
    convert_timestamp_format 0 (lit "2025-11-01T00:00:00-08:00") (lit "epoch_ms") =
      .ok (intStr (epochMsPy 0 (DateTime.mk 2025 11 1 0 0 0 0 (some (-480))))) :=
  (claim_C3.1 0 (lit "2025-11-01T00:00:00-08:00")
    (DateTime.mk 2025 11 1 0 0 0 0 (some (-480))) (by rfl)).1

theorem containsSub_cons (pat : List Char) (c : Char) (rest : List Char) :
    containsSub pat (c :: rest) = (pat.isPrefixOf (c :: rest) || containsSub pat rest) := rfl

theorem isPrefixOf_append_self (p t : List Char) : p.isPrefixOf (p ++ t) = true := by
  induction p with
  | nil => simp [List.isPrefixOf]
  | cons c cs ih => simp [List.isPrefixOf, ih]

theorem containsSub_append_self (u pat v : List Char) :
    containsSub pat (u ++ (pat ++ v)) = true := by
  induction u with
  | nil =>
    rw [List.nil_append]
    cases pat with
    | nil =>
      cases v with
      | nil => rfl
      | cons c r => rfl
    | cons p ps =>
      show containsSub (p :: ps) (p :: (ps ++ v)) = true
      rw [containsSub_cons,
        show (p :: ps).isPrefixOf (p :: (ps ++ v)) = true from isPrefixOf_append_self (p :: ps) v,
        Bool.true_or]
  | cons c u ih =>
    show containsSub pat (c :: (u ++ (pat ++ v))) = true
    rw [containsSub_cons, ih, Bool.or_true]

/-- C9 (amended): for every input that parses neither directly nor via the
colon-insertion fallback, `convert_timestamp_format` returns an error (no
value) wrapping the underlying failure with
`"Error converting timestamp: "`; the message echoes the offending input,
except when the fallback guard applies and its re-parse also fails — then
the colon-inserted variant of the input is echoed (the second
`fromisoformat` call is outside the inner bare `except:`).  The claim as
stated (input always echoed) fails on that path — see the
counterexample. -/
theorem claim_C9 (loc : Int) (ts fmt : List Char)
    (h1 : fromiso ts = none)
    (h2 : fallbackCond ts = true → fromiso (withColon ts) = none) :
    (fallbackCond ts = true →
      convert_timestamp_format loc ts fmt =
        .error (lit "Error converting timestamp: " ++
          (lit "Invalid isoformat string: '" ++ withColon ts ++ lit "'")) ∧
      containsSub (withColon ts)
        (lit "Error converting timestamp: " ++
          (lit "Invalid isoformat string: '" ++ withColon ts ++ lit "'")) = true) ∧
    (fallbackCond ts = false →
      convert_timestamp_format loc ts fmt =
        .error (lit "Error converting timestamp: " ++
          (lit "Could not parse timestamp: " ++ ts)) ∧
      containsSub ts
        (lit "Error converting timestamp: " ++
          (lit "Could not parse timestamp: " ++ ts)) = true) := by
  refine ⟨fun hf => ⟨?_, ?_⟩, fun hf => ⟨?_, ?_⟩⟩
  · have hpdef : pyParse ts =
        .error (lit "Invalid isoformat string: '" ++ withColon ts ++ lit "'") := by
      unfold pyParse
      rw [h1, if_pos hf, h2 hf]
    unfold convert_timestamp_format
    rw [hpdef]
  · have := containsSub_append_self
      (lit "Error converting timestamp: " ++ lit "Invalid isoformat string: '")
      (withColon ts) (lit "'")
    simpa [List.append_assoc] using this
  · have hpdef : pyParse ts = .error (lit "Could not parse timestamp: " ++ ts) := by
      unfold pyParse
      rw [h1, if_neg (by simp [hf])]
    unfold convert_timestamp_format
    rw [hpdef]
  · have := containsSub_append_self
      (lit "Error converting timestamp: " ++ lit "Could not parse timestamp: ") ts []
    simpa [List.append_assoc] using this

/-- Counterexample to C9 as stated: for the unparseable input
`"xxxx+1234"` the fallback fires and fails, so the raised message echoes
`"xxxx+12:34"` and does not contain the offending input `"xxxx+1234"`. -/
theorem claim_C9_counterexample :
    convert_timestamp_format 0 (lit "xxxx+1234") (lit "YYYY-MM-DD") =
      .error (lit "Error converting timestamp: Invalid isoformat string: 'xxxx+12:34'") ∧
    containsSub (lit "xxxx+1234")
      (lit "Error converting timestamp: Invalid isoformat string: 'xxxx+12:34'") = false :=
  ⟨rfl, rfl⟩

/-- Witness for C9 (amended) at the input `"garbage"` (fallback guard
false): the error wraps the parse failure and echoes the input. -/
theorem claim_C9_witness :
    convert_timestamp_format 0 (lit "garbage") (lit "YYYY-MM-DD") =
      .error (lit "Error converting timestamp: " ++
        (lit "Could not parse timestamp: " ++ lit "garbage")) ∧
    containsSub (lit "garbage")
      (lit "Error converting timestamp: " ++
        (lit "Could not parse timestamp: " ++ lit "garbage")) = true :=
  (claim_C9 0 (lit "garbage") (lit "YYYY-MM-DD") rfl (fun _ => rfl)).2 rfl

theorem natStrF_congr (n : Nat) : ∀ f1 f2 : Nat, n < f1 → n < f2 →
    natStrF f1 n = natStrF f2 n := by
  induction n using Nat.strong_induction_on with
  | _ n ih =>
    intro f1 f2 h1 h2
    obtain ⟨g1, rfl⟩ : ∃ j, f1 = j + 1 := ⟨f1 - 1, by omega⟩
    obtain ⟨g2, rfl⟩ : ∃ j, f2 = j + 1 := ⟨f2 - 1, by omega⟩
    rw [show natStrF (g1 + 1) n =
        (if n < 10 then [digCh n] else natStrF g1 (n / 10) ++ [digCh (n % 10)]) from rfl,
      show natStrF (g2 + 1) n =
        (if n < 10 then [digCh n] else natStrF g2 (n / 10) ++ [digCh (n % 10)]) from rfl]
    by_cases hn : n < 10
    · rw [if_pos hn, if_pos hn]
    · rw [if_neg hn, if_neg hn]
      rw [ih (n / 10) (by omega) g1 g2 (by omega) (by omega)]

theorem natStr_mul10 (m : Nat) (hm : 0 < m) : natStr (10 * m) = natStr m ++ ['0'] := by
  unfold natStr
  rw [show natStrF (10 * m + 1) (10 * m) =
      (if 10 * m < 10 then [digCh (10 * m)]
       else natStrF (10 * m) (10 * m / 10) ++ [digCh (10 * m % 10)]) from rfl,
    if_neg (by omega)]
  have e1 : 10 * m / 10 = m := by omega
  have e2 : 10 * m % 10 = 0 := by omega
  rw [e1, e2, natStrF_congr m (10 * m) (m + 1) (by omega) (by omega)]
  rfl

theorem natStr_mul1000 (m : Nat) (hm : 0 < m) :
    natStr (m * 1000) = natStr m ++ lit "000" := by
  have e : m * 1000 = 10 * (10 * (10 * m)) := by omega
  rw [e, natStr_mul10 _ (by omega), natStr_mul10 _ (by omega), natStr_mul10 _ hm]
  simp [List.append_assoc]
  rfl

theorem natStrF_length (n : Nat) : ∀ f k : Nat, n < f → 0 < k → n < 10 ^ k →
    (natStrF f n).length ≤ k := by
  induction n using Nat.strong_induction_on with
  | _ n ih =>
    intro f k hf hk hnk
    obtain ⟨g, rfl⟩ : ∃ j, f = j + 1 := ⟨f - 1, by omega⟩
    rw [show natStrF (g + 1) n =
        (if n < 10 then [digCh n] else natStrF g (n / 10) ++ [digCh (n % 10)]) from rfl]
    by_cases hn : n < 10
    · rw [if_pos hn]
      simpa using hk
    · rw [if_neg hn, List.length_append]
      have hk2 : 2 ≤ k := by
        by_contra hcon
        have hk1 : k = 1 := by omega
        subst hk1
        simp at hnk
        omega
      have hp : 10 ^ k = 10 ^ (k - 1) * 10 := by
        conv_lhs => rw [show k = (k - 1) + 1 by omega]
        rw [pow_succ]
      have hdiv : n / 10 < 10 ^ (k - 1) :=
        (Nat.div_lt_iff_lt_mul (by norm_num)).2 (by rw [← hp]; exact hnk)
      have := ih (n / 10) (by omega) g (k - 1) (by omega) (by omega) hdiv
      simp only [List.length_cons, List.length_nil]
      omega

theorem nanosOf_length {dt : DateTime} (h : dt.microsecond ≤ 999999) :
    (nanosOf dt).length = 9 := by
  unfold nanosOf zfill
  rw [List.length_append, List.length_replicate]
  have h9 : (10 : Nat) ^ 9 = 1000000000 := by norm_num
  have hlen : (natStr (dt.microsecond * 1000)).length ≤ 9 :=
    natStrF_length (dt.microsecond * 1000) _ 9 (by omega) (by omega) (by omega)
  omega

theorem nanosOf_suffix (dt : DateTime) : ∃ t, nanosOf dt = t ++ lit "000" := by
  unfold nanosOf
  rcases Nat.eq_zero_or_pos dt.microsecond with h0 | hpos
  · rw [h0]
    exact ⟨lit "000000", by rfl⟩
  · rw [natStr_mul1000 dt.microsecond hpos]
    exact ⟨List.replicate (9 - (natStr dt.microsecond ++ lit "000").length) '0' ++
      natStr dt.microsecond, by simp [zfill, List.append_assoc]⟩

/-- Counterexample to C2 as stated: the offset-bearing parseable input
`"0001-01-01T00:00:00+08:00"` with a `nnnnnnnnn`+`Z` format does not yield
the UTC-converted `Z`-suffixed string; shifting the instant to UTC leaves
year 1..9999 and `astimezone(timezone.utc)` raises `OverflowError`
(`"date value out of range"`), wrapped by the outer handler. -/
theorem claim_C2_counterexample :
    convert_timestamp_format 0 (lit "0001-01-01T00:00:00+08:00")
        (lit "YYYY-MM-DDTHH:MI:SS.nnnnnnnnnZ") =
      .error (lit "Error converting timestamp: date value out of range") ∧
    pyParse (lit "0001-01-01T00:00:00+08:00") =
      .ok (DateTime.mk 1 1 1 0 0 0 0 (some 480)) :=
  ⟨rfl, rfl⟩

/-- C2 (amended): for every offset-bearing parseable input, when the
target format contains `nnnnnnnnn` and the literal `Z`, the converter
takes the nanosecond+UTC branch.  Whenever the UTC-shifted instant stays
inside years 1..9999 the instant is converted to UTC (`utcNaive`), the
spliced nanosecond string is `str(microsecond*1000).zfill(9)` — exactly 9
digits always ending in `"000"` — every `Z` is removed from the pattern
before translation, and a literal `'Z'` is appended; in particular
`convertTimestampFormat("2025-11-01T00:00:00-08:00",
"YYYY-MM-DDTHH:MI:SS.nnnnnnnnnZ") = "2025-11-01T08:00:00.000000000Z"`.
When the shift leaves years 1..9999 the branch instead raises
`OverflowError`, returned wrapped as
`"Error converting timestamp: date value out of range"`. -/
theorem claim_C2 :
    (∀ (loc : Int) (ts fmt : List Char) (dt : DateTime) (off : Int),
      pyParse ts = .ok dt → dt.tz = some off →
      containsSub (lit "nnnnnnnnn") fmt = true → containsSub (lit "Z") fmt = true →
      (utcOverflow loc dt = false →
        convert_timestamp_format loc ts fmt =
          .ok (replaceAll (lit "\x7bNANOS\x7d") (nanosOf dt)
            (strftime (utcNaive loc dt)
              (convert_readable_to_strftime
                (replaceAll (lit "Z") []
                  (replaceAll (lit "nnnnnnnnn") (lit "\x7bNANOS\x7d") fmt))) ++ ['Z']))) ∧
      (utcOverflow loc dt = true →
        convert_timestamp_format loc ts fmt =
          .error (lit "Error converting timestamp: date value out of range")) ∧
      (nanosOf dt).length = 9 ∧
      (∃ t, nanosOf dt = t ++ lit "000")) ∧
    convert_timestamp_format 0 (lit "2025-11-01T00:00:00-08:00")
        (lit "YYYY-MM-DDTHH:MI:SS.nnnnnnnnnZ") =
      .ok (lit "2025-11-01T08:00:00.000000000Z") := by
  refine ⟨fun loc ts fmt dt off hp htz hn hz => ?_, by rfl⟩
  have hms : ¬ (fmt = lit "epoch_ms") := by
    intro e; rw [e] at hn; exact absurd hn (by decide)
  have hsec : ¬ (fmt = lit "epoch_sec") := by
    intro e; rw [e] at hn; exact absurd hn (by decide)
  refine ⟨fun hov => ?_, fun hov => ?_,
    nanosOf_length (pyParse_valid hp).2.2.2.2.2.2.2.2.2.1, nanosOf_suffix dt⟩
  · have hfd : formatDT loc dt fmt =
        .ok (replaceAll (lit "\x7bNANOS\x7d") (nanosOf dt)
          (strftime (utcNaive loc dt)
            (convert_readable_to_strftime
              (replaceAll (lit "Z") []
                (replaceAll (lit "nnnnnnnnn") (lit "\x7bNANOS\x7d") fmt))) ++ ['Z'])) := by
      unfold formatDT
      rw [if_neg hms, if_neg hsec, if_pos hn, if_pos hz, if_neg (by rw [hov]; exact
        Bool.false_ne_true)]
      rfl
    unfold convert_timestamp_format
    rw [hp]
    show (match formatDT loc dt fmt with
      | Except.error e => Except.error (lit "Error converting timestamp: " ++ e)
      | Except.ok r => Except.ok r) = _
    rw [hfd]
  · have hfd : formatDT loc dt fmt = .error (lit "date value out of range") := by
      unfold formatDT
      rw [if_neg hms, if_neg hsec, if_pos hn, if_pos hz, if_pos hov]
    unfold convert_timestamp_format
    rw [hp]
    show (match formatDT loc dt fmt with
      | Except.error e => Except.error (lit "Error converting timestamp: " ++ e)
      | Except.ok r => Except.ok r) = _
    rw [hfd]
    rfl

/-- Witness for C2 (amended): the general branch characterization applied
at the claim's concrete input, where the UTC shift stays in range. -/
theorem claim_C2_witness :
    convert_timestamp_format 0 (lit "2025-11-01T00:00:00-08:00")
        (lit "YYYY-MM-DDTHH:MI:SS.nnnnnnnnnZ") =
      .ok (replaceAll (lit "\x7bNANOS\x7d")
        (nanosOf (DateTime.mk 2025 11 1 0 0 0 0 (some (-480))))
        (strftime (utcNaive 0 (DateTime.mk 2025 11 1 0 0 0 0 (some (-480))))
          (convert_readable_to_strftime
            (replaceAll (lit "Z") []
              (replaceAll (lit "nnnnnnnnn") (lit "\x7bNANOS\x7d")
                (lit "YYYY-MM-DDTHH:MI:SS.nnnnnnnnnZ")))) ++ ['Z'])) ∧
    (nanosOf (DateTime.mk 2025 11 1 0 0 0 0 (some (-480)))).length = 9 :=
  have h := claim_C2.1 0 (lit "2025-11-01T00:00:00-08:00")
    (lit "YYYY-MM-DDTHH:MI:SS.nnnnnnnnnZ")
    (DateTime.mk 2025 11 1 0 0 0 0 (some (-480))) (-480) (by rfl) rfl (by rfl) (by rfl)
  ⟨h.1 (by rfl), h.2.2.1⟩

theorem containsSub_single_of_mem (c : Char) (s : List Char) (h : c ∈ s) :
    containsSub [c] s = true := by
  induction s with
  | nil => cases h
  | cons a r ih =>
    rw [containsSub_cons]
    rcases List.mem_cons.1 h with h' | h'
    · subst h'
      have : ([c].isPrefixOf (c :: r)) = true := by simp [List.isPrefixOf]
      rw [this, Bool.true_or]
    · rw [ih h', Bool.or_true]

theorem mem_of_containsSub {pat s : List Char} (h : containsSub pat s = true) :
    ∀ x ∈ pat, x ∈ s := by
  induction s with
  | nil =>
    intro x hx
    have : pat.isEmpty = true := h
    rw [List.isEmpty_iff] at this
    subst this
    cases hx
  | cons a r ih =>
    intro x hx
    rw [containsSub_cons, Bool.or_eq_true] at h
    rcases h with h | h
    · rw [List.isPrefixOf_iff_prefix] at h
      exact h.subset hx
    · exact List.mem_cons_of_mem a (ih h x hx)

theorem mem_replaceAllF {x : Char} (pat rep : List Char) :
    ∀ (fuel : Nat) (s : List Char), x ∈ replaceAllF pat rep fuel s → x ∈ s ∨ x ∈ rep := by
  intro fuel
  induction fuel with
  | zero =>
    intro s hx
    cases s with
    | nil => cases hx
    | cons a r => exact Or.inl hx
  | succ fuel ih =>
    intro s hx
    cases s with
    | nil => cases hx
    | cons a r =>
      rw [show replaceAllF pat rep (fuel + 1) (a :: r) =
          (if pat ≠ [] ∧ pat.isPrefixOf (a :: r) then
            rep ++ replaceAllF pat rep fuel (r.drop (pat.length - 1))
          else a :: replaceAllF pat rep fuel r) from rfl] at hx
      split_ifs at hx with hc
      · rcases List.mem_append.1 hx with h | h
        · exact Or.inr h
        · rcases ih (r.drop (pat.length - 1)) h with h' | h'
          · exact Or.inl (List.mem_cons_of_mem a (List.drop_subset _ r h'))
          · exact Or.inr h'
      · rcases List.mem_cons.1 hx with h | h
        · exact Or.inl (h ▸ List.mem_cons_self a r)
        · rcases ih r h with h' | h'
          · exact Or.inl (List.mem_cons_of_mem a h')
          · exact Or.inr h'

theorem not_mem_replaceAll {x : Char} {pat rep s : List Char}
    (hs : x ∉ s) (hr : x ∉ rep) : x ∉ replaceAll pat rep s := by
  intro hmem
  rcases mem_replaceAllF pat rep s.length s hmem with h | h
  · exact hs h
  · exact hr h

theorem not_mem_removeAllF (c : Char) :
    ∀ (fuel : Nat) (s : List Char), s.length ≤ fuel → c ∉ replaceAllF [c] [] fuel s := by
  intro fuel
  induction fuel with
  | zero =>
    intro s hlen
    rw [Nat.le_zero, List.length_eq_zero] at hlen
    subst hlen
    intro h
    cases h
  | succ fuel ih =>
    intro s hlen
    cases s with
    | nil => intro h; cases h
    | cons a r =>
      rw [show replaceAllF [c] [] (fuel + 1) (a :: r) =
          (if [c] ≠ [] ∧ [c].isPrefixOf (a :: r) then
            [] ++ replaceAllF [c] [] fuel (r.drop ([c].length - 1))
          else a :: replaceAllF [c] [] fuel r) from rfl]
      by_cases hca : (c == a) = true
      · have hpre : ([c].isPrefixOf (a :: r)) = true := by simp [List.isPrefixOf, hca]
        rw [if_pos ⟨List.cons_ne_nil c [], hpre⟩]
        rw [List.nil_append]
        exact ih (r.drop ([c].length - 1)) (by simp at hlen ⊢; omega)
      · have hpre : ([c].isPrefixOf (a :: r)) = false := by
          simp [List.isPrefixOf] at hca ⊢
          exact hca
        rw [if_neg (by rw [hpre]; exact fun hc => Bool.false_ne_true hc.2)]
        intro hmem
        rcases List.mem_cons.1 hmem with h | h
        · exact hca (by simp [h])
        · exact ih r (by simp at hlen; omega) h

theorem not_mem_removeAll (c : Char) (s : List Char) : c ∉ replaceAll [c] [] s :=
  not_mem_removeAllF c s.length s (Nat.le_refl _)

theorem translate_no_Z {s : List Char} (h : 'Z' ∉ s) :
    'Z' ∉ convert_readable_to_strftime s := by
  have h1 : 'Z' ∉ replaceAll (lit "YYYY") (lit "%Y") s :=
    not_mem_replaceAll h (by decide)
  have h2 := @not_mem_replaceAll 'Z' (lit "MM") (lit "%m") _ h1 (by decide)
  have h3 := @not_mem_replaceAll 'Z' (lit "DD") (lit "%d") _ h2 (by decide)
  have h4 := @not_mem_replaceAll 'Z' (lit "HH") (lit "%H") _ h3 (by decide)
  have h5 := @not_mem_replaceAll 'Z' (lit "MI") (lit "%M") _ h4 (by decide)
  have h6 := @not_mem_replaceAll 'Z' (lit "SS") (lit "%S") _ h5 (by decide)
  have h7 := @not_mem_replaceAll 'Z' (lit "offset") (lit "%z") _ h6 (by decide)
  have hTZ : containsSub (lit "TZ")
      (replaceAll (lit "offset") (lit "%z")
        (replaceAll (lit "SS") (lit "%S")
          (replaceAll (lit "MI") (lit "%M")
            (replaceAll (lit "HH") (lit "%H")
              (replaceAll (lit "DD") (lit "%d")
                (replaceAll (lit "MM") (lit "%m")
                  (replaceAll (lit "YYYY") (lit "%Y") s))))))) = false := by
    by_contra hcon
    rw [Bool.not_eq_false] at hcon
    exact h7 (mem_of_containsSub hcon 'Z' (by decide))
  have hdef : convert_readable_to_strftime s =
      replaceAll (lit "TZ") (lit "%Z")
        (replaceAll (lit "offset") (lit "%z")
          (replaceAll (lit "SS") (lit "%S")
            (replaceAll (lit "MI") (lit "%M")
              (replaceAll (lit "HH") (lit "%H")
                (replaceAll (lit "DD") (lit "%d")
                  (replaceAll (lit "MM") (lit "%m")
                    (replaceAll (lit "YYYY") (lit "%Y") s))))))) := rfl
  rw [hdef, replaceAll_of_not_contains _ _ _ hTZ]
  exact h7

/-- Counterexample to C10 as stated: with the `TZ`-bearing format
`"YYYY-MM-DD TZ"` the offset-bearing parseable input
`"9999-12-31T20:00:00-08:00"` yields no `Z`-suffixed string at all;
shifting to UTC crosses into year 10000, `astimezone(timezone.utc)`
raises `OverflowError` (`"date value out of range"`), and the wrapped
error is returned instead. -/
theorem claim_C10_counterexample :
    convert_timestamp_format 0 (lit "9999-12-31T20:00:00-08:00") (lit "YYYY-MM-DD TZ") =
      .error (lit "Error converting timestamp: date value out of range") ∧
    pyParse (lit "9999-12-31T20:00:00-08:00") =
      .ok (DateTime.mk 9999 12 31 20 0 0 0 (some (-480))) :=
  ⟨rfl, rfl⟩

/-- C10 (amended): for every non-epoch target format containing `TZ` (and
every offset-bearing parseable input), the `Z`-presence test matches the
`Z` inside `TZ` (first conjunct), so the converter takes the
UTC-normalization branch.  Whenever the UTC-shifted instant stays inside
years 1..9999: every `Z` character is removed from the pattern before
translation, hence the translated pattern contains no `'Z'` at all and
`TZ` is never translated to `%Z` (no timezone abbreviation is ever
emitted); the leftover `T` stays literal (`replaceAll "Z" "" "TZ" = "T"`)
and a single literal `'Z'` is appended to the output, as the concrete
example `"YYYY-MM-DD TZ" ↦ "2025-11-01 TZ"` shows.  When the shift leaves
years 1..9999 the branch instead raises `OverflowError`, returned wrapped
as `"Error converting timestamp: date value out of range"`. -/
theorem claim_C10 :
    (∀ (loc : Int) (ts fmt : List Char) (dt : DateTime) (off : Int),
      pyParse ts = .ok dt → dt.tz = some off → containsSub (lit "TZ") fmt = true →
      containsSub (lit "Z") fmt = true ∧
      (utcOverflow loc dt = false →
        convert_timestamp_format loc ts fmt =
          .ok (if containsSub (lit "nnnnnnnnn") fmt then
                replaceAll (lit "\x7bNANOS\x7d") (nanosOf dt)
                  (strftime (utcNaive loc dt)
                    (convert_readable_to_strftime (replaceAll (lit "Z") []
                      (replaceAll (lit "nnnnnnnnn") (lit "\x7bNANOS\x7d") fmt))) ++ ['Z'])
              else
                strftime (utcNaive loc dt)
                  (convert_readable_to_strftime (replaceAll (lit "Z") [] fmt)) ++ ['Z'])) ∧
      (utcOverflow loc dt = true →
        convert_timestamp_format loc ts fmt =
          .error (lit "Error converting timestamp: date value out of range")) ∧
      ('Z' ∉ convert_readable_to_strftime (replaceAll (lit "Z") []
          (replaceAll (lit "nnnnnnnnn") (lit "\x7bNANOS\x7d") fmt))) ∧
      ('Z' ∉ convert_readable_to_strftime (replaceAll (lit "Z") [] fmt))) ∧
    replaceAll (lit "Z") [] (lit "TZ") = lit "T" ∧
    convert_timestamp_format 0 (lit "2025-11-01T00:00:00-08:00") (lit "YYYY-MM-DD TZ") =
      .ok (lit "2025-11-01 TZ") := by
  refine ⟨fun loc ts fmt dt off hp htz hTZ => ?_, by rfl, by rfl⟩
  have hmemZ : 'Z' ∈ fmt := mem_of_containsSub hTZ 'Z' (by decide)
  have hz : containsSub (lit "Z") fmt = true := containsSub_single_of_mem 'Z' fmt hmemZ
  have hms : ¬ (fmt = lit "epoch_ms") := by
    intro e; rw [e] at hTZ; exact absurd hTZ (by decide)
  have hsec : ¬ (fmt = lit "epoch_sec") := by
    intro e; rw [e] at hTZ; exact absurd hTZ (by decide)
  refine ⟨hz, fun hov => ?_, fun hov => ?_,
    translate_no_Z (not_mem_removeAll 'Z' _), translate_no_Z (not_mem_removeAll 'Z' _)⟩
  · have hfd : formatDT loc dt fmt =
        .ok (if containsSub (lit "nnnnnnnnn") fmt then
              replaceAll (lit "\x7bNANOS\x7d") (nanosOf dt)
                (strftime (utcNaive loc dt)
                  (convert_readable_to_strftime (replaceAll (lit "Z") []
                    (replaceAll (lit "nnnnnnnnn") (lit "\x7bNANOS\x7d") fmt))) ++ ['Z'])
            else
              strftime (utcNaive loc dt)
                (convert_readable_to_strftime (replaceAll (lit "Z") [] fmt)) ++ ['Z']) := by
      unfold formatDT
      rw [if_neg hms, if_neg hsec]
      by_cases hnan : containsSub (lit "nnnnnnnnn") fmt = true
      · rw [if_pos hnan, if_pos hz,
          if_neg (by rw [hov]; exact Bool.false_ne_true), if_pos hnan]
        rfl
      · rw [if_neg hnan, if_pos hz,
          if_neg (by rw [hov]; exact Bool.false_ne_true), if_neg hnan]
    unfold convert_timestamp_format
    rw [hp]
    show (match formatDT loc dt fmt with
      | Except.error e => Except.error (lit "Error converting timestamp: " ++ e)
      | Except.ok r => Except.ok r) = _
    rw [hfd]
  · have hfd : formatDT loc dt fmt = .error (lit "date value out of range") := by
      unfold formatDT
      rw [if_neg hms, if_neg hsec]
      by_cases hnan : containsSub (lit "nnnnnnnnn") fmt = true
      · rw [if_pos hnan, if_pos hz, if_pos hov]
      · rw [if_neg hnan, if_pos hz, if_pos hov]
    unfold convert_timestamp_format
    rw [hp]
    show (match formatDT loc dt fmt with
      | Except.error e => Except.error (lit "Error converting timestamp: " ++ e)
      | Except.ok r => Except.ok r) = _
    rw [hfd]
    rfl

/-- Witness for C10 (amended) at the concrete format `"YYYY-MM-DD TZ"`:
the `TZ` token makes the `Z` test fire and the translated pattern is
`Z`-free. -/
theorem claim_C10_witness :
    containsSub (lit "Z") (lit "YYYY-MM-DD TZ") = true ∧
    'Z' ∉ convert_readable_to_strftime (replaceAll (lit "Z") [] (lit "YYYY-MM-DD TZ")) :=
  have h := claim_C10.1 0 (lit "2025-11-01T00:00:00-08:00") (lit "YYYY-MM-DD TZ")
    (DateTime.mk 2025 11 1 0 0 0 0 (some (-480))) (-480) (by rfl) rfl (by rfl)
  ⟨h.1, h.2.2.2.2⟩
